import Mathlib

/-!
# rewrd-api — verification of the points ledger, idempotency gatekeeper,
# event bus and webhook dispatcher

Shallow embedding of the core of the `rewrd-api` TypeScript service:

* `PointsService.creditPoints` / `debitPoints` (src/services/pointsService.ts)
  — transactional balance transfer between a merchant pool and a customer
  account, modelled as a pure function over an explicit store; the
  all-or-nothing transaction semantics of `db.transaction` is modelled by
  returning `Except`: on error no new store is produced.
* `requireIdempotency` middleware (src/middleware/idempotency.ts) — the
  idempotency gatekeeper, modelled over an explicit in-memory record store.
* `RedisEventService` (src/services/redisEventService.ts) — request/reply
  over pub/sub, modelled as a state machine driven by events.
* `WebhookService` (src/services/webhookService.ts) — signed webhook
  delivery with bounded retry.

Database tables are modelled as association lists; row lookup reads the
first matching entry and row update rewrites the first matching entry,
mirroring single-row primary-key reads and writes.
-/

namespace Rewrd

/-! ## Association-list store helpers -/

/-- Look up the value of the first entry with the given key. -/
def lookupA [DecidableEq α] (k : α) : List (α × β) → Option β
  | [] => none
  | p :: l => if p.1 = k then some p.2 else lookupA k l

/-- Rewrite the value of the first entry with the given key (no-op if absent).
Models a single-row SQL `UPDATE ... WHERE key = k` on a keyed table. -/
def setA [DecidableEq α] (k : α) (v : β) : List (α × β) → List (α × β)
  | [] => []
  | p :: l => if p.1 = k then (p.1, v) :: l else p :: setA k v l

/-- Remove every entry with the given key. Models `Map.delete`. -/
def eraseA [DecidableEq α] (k : α) : List (α × β) → List (α × β) :=
  List.filter (fun p => p.1 ≠ k)

/-- Insert-or-replace. Models `Map.set`. -/
def mapSetA [DecidableEq α] (k : α) (v : β) (l : List (α × β)) : List (α × β) :=
  match lookupA k l with
  | some _ => setA k v l
  | none => (k, v) :: l

theorem lookupA_setA_self [DecidableEq α] (k : α) (v : β) (l : List (α × β)) :
    lookupA k (setA k v l) = (lookupA k l).map (fun _ => v) := by
  induction l with
  | nil => simp [lookupA, setA]
  | cons p l ih =>
    by_cases h : p.1 = k
    · simp [lookupA, setA, h]
    · simp [lookupA, setA, h, ih]

theorem lookupA_setA_ne [DecidableEq α] (k k' : α) (v : β) (l : List (α × β))
    (h : k' ≠ k) : lookupA k' (setA k v l) = lookupA k' l := by
  induction l with
  | nil => simp [lookupA, setA]
  | cons p l ih =>
    by_cases hp : p.1 = k
    · have hpk : p.1 ≠ k' := by rw [hp]; exact Ne.symm h
      simp [setA, if_pos hp, lookupA, if_neg hpk]
    · simp only [setA, if_neg hp, lookupA]
      by_cases hk : p.1 = k'
      · simp [hk]
      · simp [hk, ih]

theorem lookupA_mapSetA_self [DecidableEq α] (k : α) (v : β) (l : List (α × β)) :
    lookupA k (mapSetA k v l) = some v := by
  unfold mapSetA
  cases hl : lookupA k l with
  | none => simp [lookupA]
  | some w => simp [lookupA_setA_self, hl]

theorem lookupA_mapSetA_ne [DecidableEq α] (k k' : α) (v : β) (l : List (α × β))
    (h : k' ≠ k) : lookupA k' (mapSetA k v l) = lookupA k' l := by
  unfold mapSetA
  cases hl : lookupA k l with
  | none => simp [lookupA, Ne.symm h]
  | some w => exact lookupA_setA_ne k k' v l h

/-- Sum of the values of an association list with integer values. -/
def sumVals : List (α × Int) → Int
  | [] => 0
  | p :: l => p.2 + sumVals l

theorem sumVals_append (l₁ l₂ : List (α × Int)) :
    sumVals (l₁ ++ l₂) = sumVals l₁ + sumVals l₂ := by
  induction l₁ with
  | nil => simp [sumVals]
  | cons p l ih => simp [sumVals, ih]; ring

/-- All values of an association list are non-negative. -/
def valsNonneg (l : List (α × Int)) : Prop := ∀ p ∈ l, 0 ≤ p.2

theorem valsNonneg_setA [DecidableEq α] (k : α) (v : Int) (l : List (α × Int))
    (hl : valsNonneg l) (hv : 0 ≤ v) : valsNonneg (setA k v l) := by
  induction l with
  | nil => intro q hq; simp [setA] at hq
  | cons p l ih =>
    intro q hq
    by_cases h : p.1 = k
    · simp only [setA, if_pos h] at hq
      rcases List.mem_cons.mp hq with h1 | h1
      · rw [h1]; exact hv
      · exact hl q (List.mem_cons_of_mem p h1)
    · simp only [setA, if_neg h] at hq
      rcases List.mem_cons.mp hq with h1 | h1
      · rw [h1]; exact hl p (List.mem_cons_self p l)
      · exact ih (fun r hr => hl r (List.mem_cons_of_mem p hr)) q h1

theorem lookupA_nonneg [DecidableEq α] (k : α) (l : List (α × Int)) (w : Int)
    (hl : valsNonneg l) (h : lookupA k l = some w) : 0 ≤ w := by
  induction l with
  | nil => simp [lookupA] at h
  | cons p l ih =>
    by_cases hp : p.1 = k
    · simp only [lookupA, if_pos hp, Option.some.injEq] at h
      exact h ▸ hl p (List.mem_cons_self p l)
    · simp only [lookupA, if_neg hp] at h
      exact ih (fun r hr => hl r (List.mem_cons_of_mem p hr)) h

/-- Rewriting the first entry holding key `k` (whose current value is `w`)
changes the sum over any key-filter admitting `k` by exactly `v - w`. -/
theorem sumVals_filter_setA [DecidableEq α] (pred : α → Bool) (k : α) (v w : Int)
    (l : List (α × Int)) (hlk : lookupA k l = some w) (hk : pred k = true) :
    sumVals ((setA k v l).filter (fun p => pred p.1)) =
      sumVals (l.filter (fun p => pred p.1)) + v - w := by
  induction l with
  | nil => simp [lookupA] at hlk
  | cons p l ih =>
    by_cases hp : p.1 = k
    · have hw : p.2 = w := by
        simpa [lookupA, if_pos hp] using hlk
      have hpred : pred p.1 = true := by rw [hp]; exact hk
      simp only [setA, if_pos hp, List.filter, hpred, sumVals, hw]
      ring
    · have hlk' : lookupA k l = some w := by
        simpa [lookupA, if_neg hp] using hlk
      by_cases hq : pred p.1 = true
      · simp only [setA, if_neg hp, List.filter, hq, sumVals, ih hlk']
        ring
      · have hq' : pred p.1 = false := by
          cases hb : pred p.1
          · rfl
          · exact absurd hb hq
        simp only [setA, if_neg hp, List.filter, hq', ih hlk']

/-! ## Ledger Engine — `PointsService` (src/services/pointsService.ts)

`creditPoints` / `debitPoints` run inside `db.transaction`: any thrown
`AppError` aborts the transaction and rolls back every write.  The model
makes this explicit: both operations are functions from a store to
`Except AppErr (LedgerEntry × Store)`; on `.error` no store is produced
and the caller keeps the unchanged input store. -/

/-- `AppError(message, statusCode, errorCode)` from src/utils/AppError.ts. -/
structure AppErr where
  message : String
  statusCode : Nat
  errorCode : String
deriving DecidableEq, Repr

inductive PointsLedgerType
  | credit
  | debit
deriving DecidableEq, Repr

inductive PointsTransactionStatus
  | successful
  | pending
  | failed
deriving DecidableEq, Repr

/-- `PointsTransactionInput` from src/services/pointsService.ts.
Amounts are JS numbers used as integers; modelled as `Int`. -/
structure PointsTransactionInput where
  merchant_id : String
  customer_uid : String
  amount : Int
  transaction_type : String
  reference_id : String
  title : String
  narration : Option String
  order_id : Option String
deriving DecidableEq, Repr

/-- A row inserted into the `Pointsledger` table. -/
structure LedgerEntry where
  merchant_id : String
  member_uid : String
  title : String
  narration : Option String
  ledger_type : PointsLedgerType
  transaction_type : String
  status : PointsTransactionStatus
  reference_id : String
  points : Int
  points_balance_before : Int
  points_balance_after : Int
  order_id : Option String
  processed : Bool
deriving DecidableEq, Repr

/-- The Ledger Store: `Merchants.point_balance` keyed by `merchant_id`,
`Customers.points_balance` keyed by `(merchant_id, uid)` (the customer row
is located by that pair and then updated by its primary key), and the
append-only `Pointsledger` table. -/
structure Store where
  merchants : List (String × Int)
  customers : List ((String × String) × Int)
  ledger : List LedgerEntry
deriving Repr

/-- `PointsService.creditPoints`: lock + read merchant, guard
`merchantBalance < amount`, lock + read customer, decrement pool,
increment account, insert a `successful` credit ledger row. -/
def creditPoints (input : PointsTransactionInput) (s : Store) :
    Except AppErr (LedgerEntry × Store) :=
  match lookupA input.merchant_id s.merchants with
  | none => .error ⟨"Merchant not found", 404, "merchant_not_found"⟩
  | some merchantBalance =>
    if merchantBalance < input.amount then
      .error ⟨"Insufficient merchant point balance", 400, "insufficient_merchant_points"⟩
    else
      match lookupA (input.merchant_id, input.customer_uid) s.customers with
      | none => .error ⟨"Customer not found", 404, "customer_not_found"⟩
      | some pointsBefore =>
        let pointsAfter := pointsBefore + input.amount
        let entry : LedgerEntry :=
          { merchant_id := input.merchant_id
            member_uid := input.customer_uid
            title := input.title
            narration := input.narration
            ledger_type := .credit
            transaction_type := input.transaction_type
            status := .successful
            reference_id := input.reference_id
            points := input.amount
            points_balance_before := pointsBefore
            points_balance_after := pointsAfter
            order_id := input.order_id
            processed := true }
        .ok (entry,
          { merchants := setA input.merchant_id (merchantBalance - input.amount) s.merchants
            customers := setA (input.merchant_id, input.customer_uid) pointsAfter s.customers
            ledger := s.ledger ++ [entry] })

/-- `PointsService.debitPoints`: lock + read merchant, lock + read customer,
guard `pointsBefore < amount`, return amount to pool, decrement account,
insert a `successful` debit ledger row. -/
def debitPoints (input : PointsTransactionInput) (s : Store) :
    Except AppErr (LedgerEntry × Store) :=
  match lookupA input.merchant_id s.merchants with
  | none => .error ⟨"Merchant not found", 404, "merchant_not_found"⟩
  | some merchantBalance =>
    match lookupA (input.merchant_id, input.customer_uid) s.customers with
    | none => .error ⟨"Customer not found", 404, "customer_not_found"⟩
    | some pointsBefore =>
      if pointsBefore < input.amount then
        .error ⟨"Insufficient points balance", 400, "insufficient_points"⟩
      else
        let pointsAfter := pointsBefore - input.amount
        let entry : LedgerEntry :=
          { merchant_id := input.merchant_id
            member_uid := input.customer_uid
            title := input.title
            narration := input.narration
            ledger_type := .debit
            transaction_type := input.transaction_type
            status := .successful
            reference_id := input.reference_id
            points := input.amount
            points_balance_before := pointsBefore
            points_balance_after := pointsAfter
            order_id := input.order_id
            processed := true }
        .ok (entry,
          { merchants := setA input.merchant_id (merchantBalance + input.amount) s.merchants
            customers := setA (input.merchant_id, input.customer_uid) pointsAfter s.customers
            ledger := s.ledger ++ [entry] })

/-- One ledger operation (which strategy-selected caller invoked). -/
inductive Op
  | credit (input : PointsTransactionInput)
  | debit (input : PointsTransactionInput)

def Op.input : Op → PointsTransactionInput
  | .credit i => i
  | .debit i => i

/-- Apply an operation: the transaction commits on success and rolls back on
failure, leaving the store untouched. -/
def applyOp (op : Op) (s : Store) : Store :=
  match (match op with
         | .credit i => creditPoints i s
         | .debit i => debitPoints i s) with
  | .ok r => r.2
  | .error _ => s

def runOps (ops : List Op) (s : Store) : Store :=
  ops.foldl (fun st op => applyOp op st) s

/-- The merchant's pool balance (0 if the row is absent). -/
def poolOf (m : String) (s : Store) : Int :=
  (lookupA m s.merchants).getD 0

/-- Sum of the balances of the merchant's customers. -/
def customerSum (m : String) (s : Store) : Int :=
  sumVals (s.customers.filter (fun p => decide (p.1.1 = m)))

/-- `pool.balance + Σ(customer.balances)` for one merchant. -/
def merchantTotal (m : String) (s : Store) : Int :=
  poolOf m s + customerSum m s

/-- Every pool balance and every customer balance is non-negative. -/
def storeNonneg (s : Store) : Prop :=
  valsNonneg s.merchants ∧ valsNonneg s.customers

/-- Anatomy of a successful credit: the guards passed and the committed store
holds `pool - amount`, `customer + amount`, and the appended ledger row. -/
theorem creditPoints_ok_spec {i : PointsTransactionInput} {s : Store}
    {e : LedgerEntry} {s' : Store} (h : creditPoints i s = .ok (e, s')) :
    ∃ mb cb, lookupA i.merchant_id s.merchants = some mb ∧
      lookupA (i.merchant_id, i.customer_uid) s.customers = some cb ∧
      ¬ mb < i.amount ∧
      s'.merchants = setA i.merchant_id (mb - i.amount) s.merchants ∧
      s'.customers = setA (i.merchant_id, i.customer_uid) (cb + i.amount) s.customers ∧
      s'.ledger = s.ledger ++ [e] ∧
      e.points = i.amount ∧ e.points_balance_before = cb ∧
      e.points_balance_after = cb + i.amount ∧
      e.ledger_type = .credit ∧ e.status = .successful := by
  unfold creditPoints at h
  split at h
  · simp at h
  next mb hm =>
    split at h
    · simp at h
    next hlt =>
      split at h
      · simp at h
      next cb hc =>
        simp only [Except.ok.injEq, Prod.mk.injEq] at h
        obtain ⟨he, hs⟩ := h
        subst he; subst hs
        exact ⟨mb, cb, hm, hc, hlt, rfl, rfl, rfl, rfl, rfl, rfl, rfl, rfl⟩

/-- Anatomy of a successful debit: the guards passed and the committed store
holds `pool + amount`, `customer - amount`, and the appended ledger row. -/
theorem debitPoints_ok_spec {i : PointsTransactionInput} {s : Store}
    {e : LedgerEntry} {s' : Store} (h : debitPoints i s = .ok (e, s')) :
    ∃ mb cb, lookupA i.merchant_id s.merchants = some mb ∧
      lookupA (i.merchant_id, i.customer_uid) s.customers = some cb ∧
      ¬ cb < i.amount ∧
      s'.merchants = setA i.merchant_id (mb + i.amount) s.merchants ∧
      s'.customers = setA (i.merchant_id, i.customer_uid) (cb - i.amount) s.customers ∧
      s'.ledger = s.ledger ++ [e] ∧
      e.points = i.amount ∧ e.points_balance_before = cb ∧
      e.points_balance_after = cb - i.amount ∧
      e.ledger_type = .debit ∧ e.status = .successful := by
  unfold debitPoints at h
  split at h
  · simp at h
  next mb hm =>
    split at h
    · simp at h
    next cb hc =>
      split at h
      · simp at h
      next hlt =>
        simp only [Except.ok.injEq, Prod.mk.injEq] at h
        obtain ⟨he, hs⟩ := h
        subst he; subst hs
        exact ⟨mb, cb, hm, hc, hlt, rfl, rfl, rfl, rfl, rfl, rfl, rfl, rfl⟩

/-- A committed transfer on merchant `m` leaves `pool + Σ customers` of `m`
unchanged: the two row rewrites cancel. -/
theorem merchantTotal_applyOp (m : String) (op : Op) (s : Store)
    (hm : op.input.merchant_id = m) :
    merchantTotal m (applyOp op s) = merchantTotal m s := by
  cases op with
  | credit i =>
    simp only [Op.input] at hm
    cases hr : creditPoints i s with
    | error e =>
      have ha : applyOp (.credit i) s = s := by simp [applyOp, hr]
      rw [ha]
    | ok r =>
      obtain ⟨e, s'⟩ := r
      have ha : applyOp (.credit i) s = s' := by simp [applyOp, hr]
      rw [ha]
      obtain ⟨mb, cb, hml, hcl, _, hms, hcs, -, -, -, -, -, -⟩ := creditPoints_ok_spec hr
      subst hm
      unfold merchantTotal poolOf customerSum
      rw [hms, hcs, lookupA_setA_self, hml,
        sumVals_filter_setA (fun q => decide (q.1 = i.merchant_id))
          (i.merchant_id, i.customer_uid) (cb + i.amount) cb s.customers hcl (by simp)]
      simp [Option.getD]
      ring
  | debit i =>
    simp only [Op.input] at hm
    cases hr : debitPoints i s with
    | error e =>
      have ha : applyOp (.debit i) s = s := by simp [applyOp, hr]
      rw [ha]
    | ok r =>
      obtain ⟨e, s'⟩ := r
      have ha : applyOp (.debit i) s = s' := by simp [applyOp, hr]
      rw [ha]
      obtain ⟨mb, cb, hml, hcl, _, hms, hcs, -, -, -, -, -, -⟩ := debitPoints_ok_spec hr
      subst hm
      unfold merchantTotal poolOf customerSum
      rw [hms, hcs, lookupA_setA_self, hml,
        sumVals_filter_setA (fun q => decide (q.1 = i.merchant_id))
          (i.merchant_id, i.customer_uid) (cb - i.amount) cb s.customers hcl (by simp)]
      simp [Option.getD]
      ring

/-- With a positive amount, a committed transfer keeps every balance
non-negative: the guard protects the decremented side, positivity the
incremented side. -/
theorem storeNonneg_applyOp (op : Op) (s : Store)
    (hpos : 0 < op.input.amount) (h : storeNonneg s) :
    storeNonneg (applyOp op s) := by
  obtain ⟨hm, hc⟩ := h
  cases op with
  | credit i =>
    simp only [Op.input] at hpos
    cases hr : creditPoints i s with
    | error e =>
      have ha : applyOp (.credit i) s = s := by simp [applyOp, hr]
      rw [ha]; exact ⟨hm, hc⟩
    | ok r =>
      obtain ⟨e, s'⟩ := r
      have ha : applyOp (.credit i) s = s' := by simp [applyOp, hr]
      rw [ha]
      obtain ⟨mb, cb, hml, hcl, hguard, hms, hcs, -, -, -, -, -, -⟩ := creditPoints_ok_spec hr
      constructor
      · rw [hms]
        exact valsNonneg_setA _ _ _ hm (by omega)
      · rw [hcs]
        have := lookupA_nonneg _ _ _ hc hcl
        exact valsNonneg_setA _ _ _ hc (by omega)
  | debit i =>
    simp only [Op.input] at hpos
    cases hr : debitPoints i s with
    | error e =>
      have ha : applyOp (.debit i) s = s := by simp [applyOp, hr]
      rw [ha]; exact ⟨hm, hc⟩
    | ok r =>
      obtain ⟨e, s'⟩ := r
      have ha : applyOp (.debit i) s = s' := by simp [applyOp, hr]
      rw [ha]
      obtain ⟨mb, cb, hml, hcl, hguard, hms, hcs, -, -, -, -, -, -⟩ := debitPoints_ok_spec hr
      constructor
      · rw [hms]
        have := lookupA_nonneg _ _ _ hm hml
        exact valsNonneg_setA _ _ _ hm (by omega)
      · rw [hcs]
        exact valsNonneg_setA _ _ _ hc (by omega)

theorem merchantTotal_runOps (m : String) (ops : List Op) (s : Store)
    (hm : ∀ op ∈ ops, op.input.merchant_id = m) :
    merchantTotal m (runOps ops s) = merchantTotal m s := by
  induction ops generalizing s with
  | nil => rfl
  | cons op ops ih =>
    have h1 := merchantTotal_applyOp m op s (hm op (List.mem_cons_self op ops))
    have h2 := ih (applyOp op s) (fun o ho => hm o (List.mem_cons_of_mem op ho))
    calc merchantTotal m (runOps (op :: ops) s)
        = merchantTotal m (runOps ops (applyOp op s)) := rfl
      _ = merchantTotal m (applyOp op s) := h2
      _ = merchantTotal m s := h1

theorem storeNonneg_runOps (ops : List Op) (s : Store)
    (hpos : ∀ op ∈ ops, 0 < op.input.amount) (h : storeNonneg s) :
    storeNonneg (runOps ops s) := by
  induction ops generalizing s with
  | nil => exact h
  | cons op ops ih =>
    exact ih (applyOp op s) (fun o ho => hpos o (List.mem_cons_of_mem op ho))
      (storeNonneg_applyOp op s (hpos op (List.mem_cons_self op ops)) h)

/-! ## HTTP-layer request body validation (src/schema/pointsSchema.ts) -/

/-- Body of `POST /v1/points/credit` per `creditPointsSchema`. -/
structure CreditPointsBody where
  customer_uid : String
  points : Int
  rule_id : Option Int
  narration : Option String
  order_id : Option String

/-- The zod checks of `creditPointsSchema`: `customer_uid` non-empty,
`points` a positive integer (`z.number().int().positive()`; integrality is
carried by the `Int` type of the model), `rule_id` positive when present. -/
def creditPointsBodyValid (b : CreditPointsBody) : Bool :=
  decide (1 ≤ b.customer_uid.length) && decide (0 < b.points) &&
  (match b.rule_id with
   | some r => decide (0 < r)
   | none => true)

/-- C2: for every sequence of successful local-strategy credit/debit
operations on a given merchant (amounts positive, per the operations'
stated precondition), `pool.balance + Σ(customer.balances)` is unchanged;
each successful credit moves exactly `amount` from pool to customer and
each successful debit moves it back; and no successful operation drives
the pool balance or a customer balance negative. -/
theorem C2_conservation_invariant (m : String) (ops : List Op) (s₀ : Store)
    (hm : ∀ op ∈ ops, op.input.merchant_id = m)
    (hpos : ∀ op ∈ ops, 0 < op.input.amount)
    (hnn : storeNonneg s₀) :
    merchantTotal m (runOps ops s₀) = merchantTotal m s₀ ∧
    storeNonneg (runOps ops s₀) ∧
    (∀ (i : PointsTransactionInput) (s : Store) (e : LedgerEntry) (s' : Store) (mb cb : Int),
      creditPoints i s = .ok (e, s') →
      lookupA i.merchant_id s.merchants = some mb →
      lookupA (i.merchant_id, i.customer_uid) s.customers = some cb →
      lookupA i.merchant_id s'.merchants = some (mb - i.amount) ∧
      lookupA (i.merchant_id, i.customer_uid) s'.customers = some (cb + i.amount)) ∧
    (∀ (i : PointsTransactionInput) (s : Store) (e : LedgerEntry) (s' : Store) (mb cb : Int),
      debitPoints i s = .ok (e, s') →
      lookupA i.merchant_id s.merchants = some mb →
      lookupA (i.merchant_id, i.customer_uid) s.customers = some cb →
      lookupA i.merchant_id s'.merchants = some (mb + i.amount) ∧
      lookupA (i.merchant_id, i.customer_uid) s'.customers = some (cb - i.amount)) := by
  refine ⟨merchantTotal_runOps m ops s₀ hm, storeNonneg_runOps ops s₀ hpos hnn, ?_, ?_⟩
  · intro i s e s' mb cb hok hmb hcb
    obtain ⟨mb', cb', hml, hcl, -, hms, hcs, -, -, -, -, -, -⟩ := creditPoints_ok_spec hok
    rw [hml] at hmb
    rw [hcl] at hcb
    obtain rfl : mb' = mb := by injection hmb
    obtain rfl : cb' = cb := by injection hcb
    constructor
    · rw [hms, lookupA_setA_self, hml]; rfl
    · rw [hcs, lookupA_setA_self, hcl]; rfl
  · intro i s e s' mb cb hok hmb hcb
    obtain ⟨mb', cb', hml, hcl, -, hms, hcs, -, -, -, -, -, -⟩ := debitPoints_ok_spec hok
    rw [hml] at hmb
    rw [hcl] at hcb
    obtain rfl : mb' = mb := by injection hmb
    obtain rfl : cb' = cb := by injection hcb
    constructor
    · rw [hms, lookupA_setA_self, hml]; rfl
    · rw [hcs, lookupA_setA_self, hcl]; rfl

def c2Input : PointsTransactionInput :=
  ⟨"m1", "c1", 100, "member_signup", "ref1", "Points Credit", none, none⟩

def c2Store : Store :=
  ⟨[("m1", 1000)], [(("m1", "c1"), 0)], []⟩

theorem C2_conservation_invariant_witness :
    ((∀ op ∈ [Op.credit c2Input], op.input.merchant_id = "m1") ∧
     (∀ op ∈ [Op.credit c2Input], 0 < op.input.amount) ∧
     storeNonneg c2Store) ∧
    (merchantTotal "m1" (runOps [Op.credit c2Input] c2Store) = merchantTotal "m1" c2Store ∧
     storeNonneg (runOps [Op.credit c2Input] c2Store) ∧
     (∀ (i : PointsTransactionInput) (s : Store) (e : LedgerEntry) (s' : Store) (mb cb : Int),
       creditPoints i s = .ok (e, s') →
       lookupA i.merchant_id s.merchants = some mb →
       lookupA (i.merchant_id, i.customer_uid) s.customers = some cb →
       lookupA i.merchant_id s'.merchants = some (mb - i.amount) ∧
       lookupA (i.merchant_id, i.customer_uid) s'.customers = some (cb + i.amount)) ∧
     (∀ (i : PointsTransactionInput) (s : Store) (e : LedgerEntry) (s' : Store) (mb cb : Int),
       debitPoints i s = .ok (e, s') →
       lookupA i.merchant_id s.merchants = some mb →
       lookupA (i.merchant_id, i.customer_uid) s.customers = some cb →
       lookupA i.merchant_id s'.merchants = some (mb + i.amount) ∧
       lookupA (i.merchant_id, i.customer_uid) s'.customers = some (cb - i.amount))) :=
  ⟨⟨by decide, by decide,
    ⟨by simp [valsNonneg, c2Store], by simp [valsNonneg, c2Store]⟩⟩,
   C2_conservation_invariant "m1" [Op.credit c2Input] c2Store
     (by decide) (by decide)
     ⟨by simp [valsNonneg, c2Store], by simp [valsNonneg, c2Store]⟩⟩

/-- C4: a local-strategy debit against an existing merchant and customer
whose balance is below the amount fails with `insufficient_points` (HTTP
400) and commits nothing: the store — pool, customer balances and ledger
alike — is exactly the input store. -/
theorem C4_debit_insufficient_rolls_back (i : PointsTransactionInput) (s : Store)
    (mb cb : Int)
    (hm : lookupA i.merchant_id s.merchants = some mb)
    (hc : lookupA (i.merchant_id, i.customer_uid) s.customers = some cb)
    (hlt : cb < i.amount) :
    debitPoints i s = .error ⟨"Insufficient points balance", 400, "insufficient_points"⟩ ∧
    applyOp (.debit i) s = s := by
  have h1 : debitPoints i s =
      .error ⟨"Insufficient points balance", 400, "insufficient_points"⟩ := by
    unfold debitPoints
    rw [hm, hc]
    simp [hlt]
  exact ⟨h1, by simp [applyOp, h1]⟩

def c4Input : PointsTransactionInput :=
  ⟨"m1", "c1", 150, "member_purchase_order_redeemed", "ref2", "Points Redeem", none, none⟩

def c4Store : Store :=
  ⟨[("m1", 900)], [(("m1", "c1"), 100)], []⟩

theorem C4_debit_insufficient_rolls_back_witness :
    (lookupA c4Input.merchant_id c4Store.merchants = some 900 ∧
     lookupA (c4Input.merchant_id, c4Input.customer_uid) c4Store.customers = some 100 ∧
     (100 : Int) < c4Input.amount) ∧
    (debitPoints c4Input c4Store =
       .error ⟨"Insufficient points balance", 400, "insufficient_points"⟩ ∧
     applyOp (.debit c4Input) c4Store = c4Store) :=
  ⟨⟨by decide, by decide, by decide⟩,
   C4_debit_insufficient_rolls_back c4Input c4Store 900 100
     (by decide) (by decide) (by decide)⟩

/-- C10: the Ledger Engine itself never checks that the amount is positive:
for any `amount ≤ 0`, `creditPoints` succeeds whenever the merchant row
(with a non-negative pool) and the customer row exist — the
`merchantBalance < amount` guard cannot fire — committing
`balance_after = balance_before + amount` for the customer (strictly below
`balance_before` when the amount is negative) and `pool - amount ≥ pool`
for the merchant; positivity is enforced only by the HTTP-layer zod
schema, which rejects every body with `points ≤ 0`. -/
theorem C10_no_positivity_check_in_engine (i : PointsTransactionInput) (s : Store)
    (mb cb : Int)
    (hm : lookupA i.merchant_id s.merchants = some mb)
    (hc : lookupA (i.merchant_id, i.customer_uid) s.customers = some cb)
    (hmb : 0 ≤ mb) (hamt : i.amount ≤ 0) :
    (∃ e s', creditPoints i s = .ok (e, s') ∧
      e.points_balance_before = cb ∧
      e.points_balance_after = cb + i.amount ∧
      e.status = .successful ∧
      lookupA i.merchant_id s'.merchants = some (mb - i.amount) ∧
      lookupA (i.merchant_id, i.customer_uid) s'.customers = some (cb + i.amount) ∧
      mb ≤ mb - i.amount ∧
      (i.amount < 0 → e.points_balance_after < e.points_balance_before ∧ mb < mb - i.amount)) ∧
    (∀ b : CreditPointsBody, b.points ≤ 0 → creditPointsBodyValid b = false) := by
  constructor
  · have hguard : ¬ mb < i.amount := by omega
    have hex : ∃ e s', creditPoints i s = .ok (e, s') := by
      unfold creditPoints
      rw [hm, hc]
      simp [hguard]
    obtain ⟨e, s', hok⟩ := hex
    obtain ⟨mb', cb', hml, hcl, -, hms, hcs, -, -, hbef, haft, -, hst⟩ :=
      creditPoints_ok_spec hok
    rw [hml] at hm
    rw [hcl] at hc
    obtain rfl : mb' = mb := by injection hm
    obtain rfl : cb' = cb := by injection hc
    refine ⟨e, s', hok, hbef, haft, hst, ?_, ?_, by omega, ?_⟩
    · rw [hms, lookupA_setA_self, hml]; rfl
    · rw [hcs, lookupA_setA_self, hcl]; rfl
    · intro hneg
      constructor
      · rw [hbef, haft]; omega
      · omega
  · intro b hb
    have hdec : decide (0 < b.points) = false := decide_eq_false (by omega)
    simp [creditPointsBodyValid, hdec]

def c10Input : PointsTransactionInput :=
  ⟨"m1", "c1", -5, "member_points_adjustment_credit", "ref3", "Negative Credit", none, none⟩

def c10Store : Store :=
  ⟨[("m1", 1000)], [(("m1", "c1"), 3)], []⟩

theorem C10_no_positivity_check_in_engine_witness :
    (lookupA c10Input.merchant_id c10Store.merchants = some 1000 ∧
     lookupA (c10Input.merchant_id, c10Input.customer_uid) c10Store.customers = some 3 ∧
     (0 : Int) ≤ 1000 ∧ c10Input.amount ≤ 0) ∧
    ((∃ e s', creditPoints c10Input c10Store = .ok (e, s') ∧
       e.points_balance_before = 3 ∧
       e.points_balance_after = 3 + c10Input.amount ∧
       e.status = .successful ∧
       lookupA c10Input.merchant_id s'.merchants = some (1000 - c10Input.amount) ∧
       lookupA (c10Input.merchant_id, c10Input.customer_uid) s'.customers =
         some (3 + c10Input.amount) ∧
       (1000 : Int) ≤ 1000 - c10Input.amount ∧
       (c10Input.amount < 0 →
         e.points_balance_after < e.points_balance_before ∧
         (1000 : Int) < 1000 - c10Input.amount)) ∧
     (∀ b : CreditPointsBody, b.points ≤ 0 → creditPointsBodyValid b = false)) :=
  ⟨⟨by decide, by decide, by decide, by decide⟩,
   C10_no_positivity_check_in_engine c10Input c10Store 1000 3
     (by decide) (by decide) (by decide) (by decide)⟩

/-! ## Idempotency Gatekeeper — `requireIdempotency`
(src/middleware/idempotency.ts)

The middleware applies to POST requests only.  On first sight of a scope
key it overrides `res.json` so that the response eventually sent —
whether produced by the route handler or by the global `errorHandler`
(which also responds through `res.json`) — is captured into the store
with the current timestamp.  The model assumes each request produces
exactly one JSON response, delivered through that override, and
represents the downstream pipeline (validation, controller, error
handler) as a function from the request to that response. -/

/-- The HTTP-equivalent response captured by the gatekeeper. -/
structure StoredResponse where
  status : Nat
  body : String
deriving DecidableEq, Repr

/-- `IdempotencyRecord` from src/middleware/idempotency.ts. -/
structure IdemRecord where
  response : StoredResponse
  createdAt : Nat
deriving DecidableEq, Repr

/-- The module-level `idempotencyStore` map, scoped key → record. -/
abbrev IdemStore := List (String × IdemRecord)

/-- 24 hours in milliseconds. -/
def IDEMPOTENCY_TTL : Nat := 24 * 60 * 60 * 1000

/-- One character of the key charset `[a-zA-Z0-9_-]`. -/
def validKeyChar (c : Char) : Bool :=
  (('a' ≤ c && c ≤ 'z') || ('A' ≤ c && c ≤ 'Z') || ('0' ≤ c && c ≤ '9')
    || c = '_' || c = '-')

/-- The key pattern `/^[a-zA-Z0-9_-]{1,100}$/`. -/
def validIdempotencyKey (k : String) : Bool :=
  decide (1 ≤ k.length) && decide (k.length ≤ 100) && k.toList.all validKeyChar

/-- An inbound HTTP request as the gatekeeper sees it. -/
structure HttpReq where
  method : String
  idempotencyKey : Option String
  merchantId : String
  body : String
deriving DecidableEq, Repr

/-- What one gatekeeper pass produced: the response the client observes and
whether the downstream business logic ran. -/
structure GateResult where
  response : StoredResponse
  handlerInvoked : Bool
deriving DecidableEq, Repr

/-- The 400 response shaped by `errorHandler` for an `AppError` raised by
the middleware itself (before the `res.json` override is installed, so it
is never captured in the store). -/
def idemErrorResponse (code : String) : StoredResponse :=
  { status := 400, body := code }

/-- `requireIdempotency`: non-POST passes through untouched; a missing or
malformed key is rejected before any business logic; an unexpired record
under the scope key replays the stored response verbatim; an expired
record is deleted and the request treated as first-seen; a first-seen key
runs the handler and captures its response (whatever its status) under the
scope key with the current time. -/
def requireIdempotency (handler : HttpReq → StoredResponse) (now : Nat)
    (req : HttpReq) (st : IdemStore) : GateResult × IdemStore :=
  if req.method ≠ "POST" then
    ({ response := handler req, handlerInvoked := true }, st)
  else
    match req.idempotencyKey with
    | none =>
      ({ response := idemErrorResponse "idempotency_key_required",
         handlerInvoked := false }, st)
    | some key =>
      if ¬ validIdempotencyKey key then
        ({ response := idemErrorResponse "invalid_idempotency_key",
           handlerInvoked := false }, st)
      else
        let scopedKey := req.merchantId ++ ":" ++ key
        match lookupA scopedKey st with
        | some rec =>
          if now - rec.createdAt > IDEMPOTENCY_TTL then
            let st' := eraseA scopedKey st
            let resp := handler req
            ({ response := resp, handlerInvoked := true },
             mapSetA scopedKey { response := resp, createdAt := now } st')
          else
            ({ response := rec.response, handlerInvoked := false }, st)
        | none =>
          let resp := handler req
          ({ response := resp, handlerInvoked := true },
           mapSetA scopedKey { response := resp, createdAt := now } st)

/-- Run a sequence of timestamped requests through the gatekeeper. -/
def runGate (handler : HttpReq → StoredResponse) :
    List (Nat × HttpReq) → IdemStore → List GateResult × IdemStore
  | [], st => ([], st)
  | (t, r) :: rest, st =>
    let p := requireIdempotency handler t r st
    let q := runGate handler rest p.2
    (p.1 :: q.1, q.2)

/-- First sight of a scope key: the handler runs and its response — whatever
its status — is captured under the scope key with the current time. -/
theorem requireIdempotency_first_seen (handler : HttpReq → StoredResponse)
    (now : Nat) (req : HttpReq) (st : IdemStore) (K : String)
    (hm : req.method = "POST") (hk : req.idempotencyKey = some K)
    (hK : validIdempotencyKey K = true)
    (hfresh : lookupA (req.merchantId ++ ":" ++ K) st = none) :
    requireIdempotency handler now req st =
      ({ response := handler req, handlerInvoked := true },
       mapSetA (req.merchantId ++ ":" ++ K)
         { response := handler req, createdAt := now } st) := by
  unfold requireIdempotency
  rw [hm, hk]
  simp [hK, hfresh]

/-- Repeat with an unexpired record: the stored response is returned
verbatim, the handler does not run, the store is unchanged. -/
theorem requireIdempotency_replay (handler : HttpReq → StoredResponse)
    (now : Nat) (req : HttpReq) (st : IdemStore) (K : String) (rec : IdemRecord)
    (hm : req.method = "POST") (hk : req.idempotencyKey = some K)
    (hK : validIdempotencyKey K = true)
    (hrec : lookupA (req.merchantId ++ ":" ++ K) st = some rec)
    (hage : now - rec.createdAt ≤ IDEMPOTENCY_TTL) :
    requireIdempotency handler now req st =
      ({ response := rec.response, handlerInvoked := false }, st) := by
  unfold requireIdempotency
  rw [hm, hk]
  have hno : ¬ (now - rec.createdAt > IDEMPOTENCY_TTL) := by omega
  simp [hK, hrec, hno]

/-- While an unexpired record for the scope key is in the store, a whole
batch of repeats with that key replays it and leaves the store alone. -/
theorem runGate_replay (handler : HttpReq → StoredResponse) (M K : String)
    (rec : IdemRecord) (rest : List (Nat × HttpReq)) (st : IdemStore)
    (hrec : lookupA (M ++ ":" ++ K) st = some rec)
    (hK : validIdempotencyKey K = true)
    (hrest : ∀ p ∈ rest, (p.2).method = "POST" ∧ (p.2).idempotencyKey = some K ∧
      (p.2).merchantId = M ∧ p.1 - rec.createdAt ≤ IDEMPOTENCY_TTL) :
    runGate handler rest st =
      (rest.map (fun _ => { response := rec.response, handlerInvoked := false }), st) := by
  induction rest with
  | nil => rfl
  | cons p rest ih =>
    obtain ⟨t, r⟩ := p
    obtain ⟨hm, hk, hM, hage⟩ := hrest (t, r) (List.mem_cons_self _ _)
    have hrec' : lookupA (r.merchantId ++ ":" ++ K) st = some rec := by rw [hM]; exact hrec
    have hstep := requireIdempotency_replay handler t r st K rec hm hk hK hrec' hage
    have hrest' := fun q hq => hrest q (List.mem_cons_of_mem _ hq)
    simp only [runGate, hstep, ih hrest', List.map_cons]

theorem filter_invoked_of_const_false (l : List α) (g : GateResult)
    (hg : g.handlerInvoked = false) :
    (l.map (fun _ => g)).filter (fun x => x.handlerInvoked) = [] := by
  induction l with
  | nil => rfl
  | cons a l ih => simp [List.filter, hg, ih]

/-- C1: for a merchant scope and a valid idempotency key, a run of POST
requests that all carry that scope key, arriving within the 24h retention
window of the first, invokes the business logic exactly once — on the
first request — and answers every later request with the first stored
response (status and body) verbatim, without re-invoking the handler, with
no constraint that the replayed request bodies match the original. -/
theorem C1_idempotent_replay (handler : HttpReq → StoredResponse) (M K : String)
    (t₁ : Nat) (r₁ : HttpReq) (rest : List (Nat × HttpReq)) (st₀ : IdemStore)
    (h₁m : r₁.method = "POST") (h₁k : r₁.idempotencyKey = some K)
    (h₁M : r₁.merchantId = M)
    (hK : validIdempotencyKey K = true)
    (hrest : ∀ p ∈ rest, (p.2).method = "POST" ∧ (p.2).idempotencyKey = some K ∧
      (p.2).merchantId = M ∧ p.1 - t₁ ≤ IDEMPOTENCY_TTL)
    (hfresh : lookupA (M ++ ":" ++ K) st₀ = none) :
    (runGate handler ((t₁, r₁) :: rest) st₀).1 =
      { response := handler r₁, handlerInvoked := true } ::
        rest.map (fun _ => { response := handler r₁, handlerInvoked := false }) ∧
    ((runGate handler ((t₁, r₁) :: rest) st₀).1.filter
        (fun g => g.handlerInvoked)).length = 1 := by
  have hfresh' : lookupA (r₁.merchantId ++ ":" ++ K) st₀ = none := by
    rw [h₁M]; exact hfresh
  have hstep := requireIdempotency_first_seen handler t₁ r₁ st₀ K h₁m h₁k hK hfresh'
  have hrec : lookupA (M ++ ":" ++ K)
      (mapSetA (r₁.merchantId ++ ":" ++ K)
        { response := handler r₁, createdAt := t₁ } st₀) =
      some { response := handler r₁, createdAt := t₁ } := by
    rw [h₁M] at hstep ⊢
    exact lookupA_mapSetA_self _ _ _
  have hbatch := runGate_replay handler M K
    { response := handler r₁, createdAt := t₁ } rest
    (mapSetA (r₁.merchantId ++ ":" ++ K)
      { response := handler r₁, createdAt := t₁ } st₀)
    hrec hK hrest
  constructor
  · simp only [runGate, hstep, hbatch]
  · simp only [runGate, hstep, hbatch]
    simp [List.filter,
      filter_invoked_of_const_false rest
        { response := handler r₁, handlerInvoked := false } rfl]

def c1Handler : HttpReq → StoredResponse :=
  fun r => { status := 200, body := "ok:" ++ r.body }

def c1Req1 : HttpReq :=
  { method := "POST"
    idempotencyKey := some "key-1"
    merchantId := "mer_1"
    body := "b1" }

def c1Req2 : HttpReq :=
  { method := "POST"
    idempotencyKey := some "key-1"
    merchantId := "mer_1"
    body := "b2-different" }

theorem C1_idempotent_replay_witness :
    (c1Req1.method = "POST" ∧ c1Req1.idempotencyKey = some "key-1" ∧
     c1Req1.merchantId = "mer_1" ∧ validIdempotencyKey "key-1" = true ∧
     (∀ p ∈ [((50 : Nat), c1Req2)], (p.2).method = "POST" ∧
       (p.2).idempotencyKey = some "key-1" ∧ (p.2).merchantId = "mer_1" ∧
       p.1 - 10 ≤ IDEMPOTENCY_TTL) ∧
     lookupA ("mer_1" ++ ":" ++ "key-1") ([] : IdemStore) = none) ∧
    ((runGate c1Handler [(10, c1Req1), (50, c1Req2)] []).1 =
      { response := c1Handler c1Req1, handlerInvoked := true } ::
        [((50 : Nat), c1Req2)].map
          (fun _ => { response := c1Handler c1Req1, handlerInvoked := false }) ∧
     ((runGate c1Handler [(10, c1Req1), (50, c1Req2)] []).1.filter
        (fun g => g.handlerInvoked)).length = 1) :=
  ⟨⟨rfl, rfl, rfl, by decide, by decide, rfl⟩,
   C1_idempotent_replay c1Handler "mer_1" "key-1" 10 c1Req1 [(50, c1Req2)] []
     rfl rfl rfl (by decide) (by decide) rfl⟩

/-- C3 counterexample: a first-seen key whose request completes with a 400
failure still gets an IdempotencyRecord, and the retry replays the cached
failure instead of re-invoking the business logic — refuting the claim
that a record is created only on successful completion. -/
def c3Handler : HttpReq → StoredResponse :=
  fun _ => { status := 400, body := "insufficient_points" }

def c3Req : HttpReq :=
  { method := "POST"
    idempotencyKey := some "k1"
    merchantId := "m1"
    body := "b" }

def c3Store1 : IdemStore := (requireIdempotency c3Handler 0 c3Req []).2

theorem C3_counterexample_failure_cached :
    lookupA ("m1" ++ ":" ++ "k1") c3Store1 =
      some { response := { status := 400, body := "insufficient_points" },
             createdAt := 0 } ∧
    (requireIdempotency c3Handler 1000 c3Req c3Store1).1 =
      { response := { status := 400, body := "insufficient_points" },
        handlerInvoked := false } := by
  constructor
  · decide
  · decide

/-- C3 (amended): an IdempotencyRecord is created on the first completion of
a mutating call whatever its outcome — the response capture is installed
before the business logic runs and fires on every JSON response, error
responses included — so a retry with the same unexpired scope key replays
the cached response (a cached failure included) rather than re-invoking
the business logic. -/
theorem C3_record_on_any_completion (handler : HttpReq → StoredResponse)
    (now : Nat) (req : HttpReq) (st : IdemStore) (K : String)
    (hm : req.method = "POST") (hk : req.idempotencyKey = some K)
    (hK : validIdempotencyKey K = true)
    (hfresh : lookupA (req.merchantId ++ ":" ++ K) st = none) :
    (requireIdempotency handler now req st).1 =
      { response := handler req, handlerInvoked := true } ∧
    lookupA (req.merchantId ++ ":" ++ K) (requireIdempotency handler now req st).2 =
      some { response := handler req, createdAt := now } ∧
    (∀ t', t' - now ≤ IDEMPOTENCY_TTL →
      (requireIdempotency handler t' req (requireIdempotency handler now req st).2).1 =
        { response := handler req, handlerInvoked := false }) := by
  have hstep := requireIdempotency_first_seen handler now req st K hm hk hK hfresh
  refine ⟨by rw [hstep], ?_, ?_⟩
  · rw [hstep]
    exact lookupA_mapSetA_self _ _ _
  · intro t' hage
    have hrec : lookupA (req.merchantId ++ ":" ++ K)
        (requireIdempotency handler now req st).2 =
        some { response := handler req, createdAt := now } := by
      rw [hstep]
      exact lookupA_mapSetA_self _ _ _
    have := requireIdempotency_replay handler t' req
      (requireIdempotency handler now req st).2 K
      { response := handler req, createdAt := now } hm hk hK hrec hage
    rw [this]

theorem C3_record_on_any_completion_witness :
    (c3Req.method = "POST" ∧ c3Req.idempotencyKey = some "k1" ∧
     validIdempotencyKey "k1" = true ∧
     lookupA (c3Req.merchantId ++ ":" ++ "k1") ([] : IdemStore) = none) ∧
    ((requireIdempotency c3Handler 0 c3Req []).1 =
      { response := c3Handler c3Req, handlerInvoked := true } ∧
     lookupA (c3Req.merchantId ++ ":" ++ "k1")
        (requireIdempotency c3Handler 0 c3Req []).2 =
      some { response := c3Handler c3Req, createdAt := 0 } ∧
     (∀ t', t' - 0 ≤ IDEMPOTENCY_TTL →
       (requireIdempotency c3Handler t' c3Req
           (requireIdempotency c3Handler 0 c3Req []).2).1 =
         { response := c3Handler c3Req, handlerInvoked := false })) :=
  ⟨⟨rfl, rfl, by decide, rfl⟩,
   C3_record_on_any_completion c3Handler 0 c3Req [] "k1" rfl rfl (by decide) rfl⟩

/-! ## Event Bus — `RedisEventService` (src/services/redisEventService.ts)

The service is modelled as a state machine.  The state carries the
`pendingRequests` map (correlation id ↦ the eventType captured by the
stored resolve/reject/timer closures), the set of active deadline timers,
the settlement state of every future a `requestReply` call has created
(`none` = still pending, `some o` = settled with outcome `o`; settling an
already-settled promise is a no-op, as for a JS promise), and the
`initialized` flag.  Events are the callbacks the runtime can fire:
`requestReply` invocation, a message on the results channel, a timer
firing, the publish promise resolving with a subscriber count or
rejecting, `initialize`, and `shutdown`. -/

/-- JS `x || default` over an optional string (`""` is falsy). -/
def jsOrStr (o : Option String) (d : String) : String :=
  match o with
  | some s => if s = "" then d else s
  | none => d

/-- JS `x || default` over an optional number (`0` is falsy). -/
def jsOrNat (o : Option Nat) (d : Nat) : Nat :=
  match o with
  | some n => if n = 0 then d else n
  | none => d

/-- The optional `error` field of an `EventResult` reply envelope. -/
structure RemoteErrInfo where
  message : Option String
  code : Option String
  statusCode : Option Nat
deriving DecidableEq, Repr

/-- How a `requestReply` future settled. -/
inductive Outcome
  | resolvedOk (data : Option String)
  | rejectedApp (message : String) (statusCode : Nat) (errorCode : String)
  | rejectedPlain (message : String)
deriving DecidableEq, Repr

/-- Settling a promise that is still pending takes the outcome; settling an
already-settled promise changes nothing. -/
def settleVal (o : Outcome) : Option Outcome → Option Outcome
  | none => some o
  | some y => some y

/-- Settle the future of one correlation id. -/
def settleP (cid : String) (o : Outcome) :
    List (String × Option Outcome) → List (String × Option Outcome)
  | [] => []
  | p :: l => if p.1 = cid then (p.1, settleVal o p.2) :: l else p :: settleP cid o l

/-- Settle the futures of a list of correlation ids (shutdown sweep). -/
def settleAll (cids : List String) (o : Outcome)
    (ps : List (String × Option Outcome)) : List (String × Option Outcome) :=
  cids.foldl (fun acc cid => settleP cid o acc) ps

/-- State of one `RedisEventService` instance. -/
structure SvcState where
  pendingRequests : List (String × String)
  timers : List (String × String)
  promises : List (String × Option Outcome)
  inited : Bool
deriving Repr

def initState : SvcState := ⟨[], [], [], false⟩

/-- The events the runtime can deliver to the service. -/
inductive Ev
  | svcInit
  | request (cid : String) (eventType : String)
  | reply (cid : String) (success : Bool) (data : Option String) (err : RemoteErrInfo)
  | timerFire (cid : String)
  | publishResult (cid : String) (subscriberCount : Nat)
  | publishError (cid : String)
  | shutdown
deriving DecidableEq, Repr

/-- One step of the service, mirroring the source:

* `initialize` sets the flag (idempotent).
* `request cid ty` is `requestReply` being invoked and `crypto.randomUUID()`
  returning `cid`: a deadline timer is started, a waiter registered, a
  fresh (unsettled) future created.  Nothing consults `initialized`.
* `reply` is `handleResult`: an unknown correlation id is logged and
  dropped without any state change; a known one has its timer cleared,
  its waiter deleted and its future resolved (success → data) or rejected
  with the translated `AppError`.
* `timerFire cid` is the deadline callback (only an active timer fires):
  delete the waiter, reject with the 504 `event_timeout` error.
* `publishResult cid 0` is the publish promise reporting zero subscribers:
  clear the timer, delete the waiter, reject with the 503 `no_subscribers`
  error; a non-zero count changes nothing.
* `publishError cid` is the publish promise rejecting: clear the timer,
  delete the waiter, reject with the 503 `redis_publish_error` error.
* `shutdown` clears every waiter's timer, rejects every outstanding future
  with the plain `"Service shutting down"` error, empties the map and
  clears the flag. -/
def step (e : Ev) (s : SvcState) : SvcState :=
  match e with
  | .svcInit => if s.inited then s else { s with inited := true }
  | .request cid eventType =>
    { s with
      timers := (cid, eventType) :: s.timers
      pendingRequests := (cid, eventType) :: s.pendingRequests
      promises := (cid, none) :: s.promises }
  | .reply cid success data err =>
    if (lookupA cid s.pendingRequests).isSome then
      { s with
        timers := eraseA cid s.timers
        pendingRequests := eraseA cid s.pendingRequests
        promises := settleP cid
          (if success then .resolvedOk data
           else .rejectedApp (jsOrStr err.message "Remote processing failed")
                  (jsOrNat err.statusCode 500) (jsOrStr err.code "remote_error"))
          s.promises }
    else s
  | .timerFire cid =>
    match lookupA cid s.timers with
    | some ty =>
      { s with
        timers := eraseA cid s.timers
        pendingRequests := eraseA cid s.pendingRequests
        promises := settleP cid
          (.rejectedApp ("Request to dashboard backend timed out (" ++ ty ++ ")")
            504 "event_timeout") s.promises }
    | none => s
  | .publishResult cid n =>
    if n = 0 then
      { s with
        timers := eraseA cid s.timers
        pendingRequests := eraseA cid s.pendingRequests
        promises := settleP cid
          (.rejectedApp
            "No subscribers available to process the event. Dashboard backend may be offline."
            503 "no_subscribers") s.promises }
    else s
  | .publishError cid =>
    { s with
      timers := eraseA cid s.timers
      pendingRequests := eraseA cid s.pendingRequests
      promises := settleP cid
        (.rejectedApp "Failed to publish event to Redis" 503 "redis_publish_error")
        s.promises }
  | .shutdown =>
    { s with
      timers := s.timers.filter (fun t => (lookupA t.1 s.pendingRequests).isNone)
      promises := settleAll (s.pendingRequests.map Prod.fst)
        (.rejectedPlain "Service shutting down") s.promises
      pendingRequests := []
      inited := false }

def runEv (tr : List Ev) (s : SvcState) : SvcState :=
  tr.foldl (fun st e => step e st) s

/-- Event admissibility: `crypto.randomUUID()` never repeats a correlation
id this instance has already used (spec: treat ids as 128-bit random). -/
def evOk (s : SvcState) : Ev → Bool
  | .request cid _ => (lookupA cid s.promises).isNone
  | _ => true

/-- A trace is well-formed from `s` when every request event carries a
fresh correlation id at the point it occurs. -/
def wfFrom (s : SvcState) : List Ev → Bool
  | [] => true
  | e :: tr => evOk s e && wfFrom (step e s) tr

def promState (cid : String) (s : SvcState) : Option (Option Outcome) :=
  lookupA cid s.promises

def isPendingC (cid : String) (s : SvcState) : Bool :=
  (lookupA cid s.pendingRequests).isSome

def timerActive (cid : String) (s : SvcState) : Bool :=
  (lookupA cid s.timers).isSome

theorem lookupA_eraseA_self [DecidableEq α] (k : α) (l : List (α × β)) :
    lookupA k (eraseA k l) = none := by
  induction l with
  | nil => rfl
  | cons p l ih =>
    by_cases h : p.1 = k
    · simpa [eraseA, List.filter_cons, h] using ih
    · simpa [eraseA, List.filter_cons, h, lookupA] using ih

theorem lookupA_eraseA_ne [DecidableEq α] (k k' : α) (l : List (α × β))
    (h : k' ≠ k) : lookupA k' (eraseA k l) = lookupA k' l := by
  induction l with
  | nil => rfl
  | cons p l ih =>
    by_cases hp : p.1 = k
    · have hkk : ¬ k = k' := fun he => h he.symm
      simpa [eraseA, List.filter_cons, hp, lookupA, hkk] using ih
    · by_cases hk : p.1 = k'
      · simp [eraseA, List.filter_cons, hp, lookupA, hk, h]
      · simpa [eraseA, List.filter_cons, hp, lookupA, hk] using ih

theorem lookupA_settleP (c cid : String) (o : Outcome)
    (ps : List (String × Option Outcome)) :
    lookupA c (settleP cid o ps) =
      if c = cid then (lookupA c ps).map (settleVal o) else lookupA c ps := by
  induction ps with
  | nil => simp [settleP, lookupA]
  | cons p l ih =>
    by_cases h : p.1 = cid
    · by_cases hc : c = cid
      · have hpc : p.1 = c := by rw [h, hc]
        simp [settleP, h, lookupA, hpc, hc]
      · have hcid : ¬ cid = c := fun he => hc he.symm
        simp [settleP, h, lookupA, hcid, hc]
    · by_cases hpc : p.1 = c
      · have hcc : ¬ c = cid := by rw [← hpc]; exact h
        simp [settleP, h, lookupA, hpc, hcc]
      · simp [settleP, h, lookupA, hpc, ih]

theorem lookupA_settleAll (cids : List String) (o : Outcome)
    (ps : List (String × Option Outcome)) (c : String) :
    lookupA c (settleAll cids o ps) =
      if c ∈ cids then (lookupA c ps).map (settleVal o) else lookupA c ps := by
  induction cids generalizing ps with
  | nil => simp [settleAll]
  | cons d cids ih =>
    rw [show settleAll (d :: cids) o ps = settleAll cids o (settleP d o ps) from rfl, ih]
    by_cases hm : c ∈ cids
    · have hmem : c ∈ d :: cids := List.mem_cons_of_mem d hm
      rw [if_pos hm, if_pos hmem, lookupA_settleP]
      by_cases hc : c = d
      · rw [if_pos hc]
        cases hl : lookupA c ps with
        | none => simp
        | some x => cases x <;> simp [settleVal]
      · rw [if_neg hc]
    · by_cases hc : c = d
      · have hmem : c ∈ d :: cids := by rw [hc]; exact List.mem_cons_self d cids
        rw [if_neg hm, if_pos hmem, lookupA_settleP, if_pos hc]
      · have hmem : c ∉ d :: cids := by
          intro hx
          rcases List.mem_cons.mp hx with h1 | h1
          · exact hc h1
          · exact hm h1
        rw [if_neg hm, if_neg hmem, lookupA_settleP, if_neg hc]

theorem lookupA_filter_key [DecidableEq α] (q : α → Bool) (k : α) (l : List (α × β)) :
    lookupA k (l.filter (fun p => q p.1)) = if q k then lookupA k l else none := by
  induction l with
  | nil => simp [lookupA]
  | cons p l ih =>
    by_cases hq : q p.1 = true
    · by_cases hk : p.1 = k
      · subst hk
        simp [List.filter_cons, hq, lookupA]
      · simp [List.filter_cons, hq, lookupA, hk, ih]
    · have hq' : q p.1 = false := by
        cases hb : q p.1
        · rfl
        · exact absurd hb hq
      by_cases hk : p.1 = k
      · subst hk
        simp [List.filter_cons, hq', lookupA, ih]
      · simp [List.filter_cons, hq', lookupA, hk, ih]

theorem mem_map_fst_of_lookupA_isSome [DecidableEq α] (k : α) (l : List (α × β))
    (h : (lookupA k l).isSome = true) : k ∈ l.map Prod.fst := by
  induction l with
  | nil => simp [lookupA] at h
  | cons p l ih =>
    by_cases hp : p.1 = k
    · exact List.mem_cons.mpr (Or.inl hp.symm)
    · simp only [lookupA, if_neg hp] at h
      exact List.mem_cons.mpr (Or.inr (ih h))

theorem promState_settleP_settled (c cid : String) (o o' : Outcome)
    (ps : List (String × Option Outcome)) (h : lookupA cid ps = some (some o)) :
    lookupA cid (settleP c o' ps) = some (some o) := by
  rw [lookupA_settleP]
  by_cases hc : cid = c
  · rw [if_pos hc, h]; rfl
  · rw [if_neg hc]; exact h

theorem promState_settleAll_settled (cids : List String) (o o' : Outcome)
    (ps : List (String × Option Outcome)) (cid : String)
    (h : lookupA cid ps = some (some o)) :
    lookupA cid (settleAll cids o' ps) = some (some o) := by
  rw [lookupA_settleAll]
  by_cases hm : cid ∈ cids
  · rw [if_pos hm, h]; rfl
  · rw [if_neg hm]; exact h

/-- The service invariant: a timer is active exactly for the waiters in the
map; every waiter has a future; a future is unsettled exactly while its
waiter is registered. -/
def Inv (s : SvcState) : Prop :=
  (∀ cid, timerActive cid s = isPendingC cid s) ∧
  (∀ cid, isPendingC cid s = true → (promState cid s).isSome = true) ∧
  (∀ cid, promState cid s = some none ↔ isPendingC cid s = true)

theorem Inv_initState : Inv initState := by
  refine ⟨fun cid => rfl, fun cid h => ?_, fun cid => ?_⟩
  · simp [isPendingC, initState, lookupA] at h
  · simp [promState, isPendingC, initState, lookupA]

/-- A settle call never turns a future back into a pending one. -/
theorem map_settleVal_ne_some_none (o : Outcome) (x : Option (Option Outcome)) :
    x.map (settleVal o) ≠ some none := by
  cases x with
  | none => simp
  | some y => cases y <;> simp [settleVal]

theorem Inv_step (e : Ev) (s : SvcState) (h : Inv s) : Inv (step e s) := by
  obtain ⟨h1, h2, h3⟩ := h
  cases e with
  | svcInit =>
    have ht : (step Ev.svcInit s).timers = s.timers := by
      by_cases hI : s.inited <;> simp [step, hI]
    have hp : (step Ev.svcInit s).pendingRequests = s.pendingRequests := by
      by_cases hI : s.inited <;> simp [step, hI]
    have hq : (step Ev.svcInit s).promises = s.promises := by
      by_cases hI : s.inited <;> simp [step, hI]
    exact ⟨fun cid => by rw [timerActive, isPendingC, ht, hp]; exact h1 cid,
           fun cid hc => by
             rw [promState, hq]
             exact h2 cid (by rwa [isPendingC, hp] at hc),
           fun cid => by rw [promState, isPendingC, hq, hp]; exact h3 cid⟩
  | request c ty =>
    refine ⟨fun cid => ?_, fun cid hcp => ?_, fun cid => ?_⟩
    · by_cases hcc : c = cid
      · simp [step, timerActive, isPendingC, lookupA, hcc]
      · simp [step, timerActive, isPendingC, lookupA, hcc]
        exact h1 cid
    · by_cases hcc : c = cid
      · simp [step, promState, lookupA, hcc]
      · simp [step, isPendingC, lookupA, hcc] at hcp
        simp [step, promState, lookupA, hcc]
        exact h2 cid hcp
    · by_cases hcc : c = cid
      · simp [step, promState, isPendingC, lookupA, hcc]
      · simp [step, promState, isPendingC, lookupA, hcc]
        exact h3 cid
  | reply c success data err =>
    by_cases hg : (lookupA c s.pendingRequests).isSome = true
    · refine ⟨fun cid => ?_, fun cid hcp => ?_, fun cid => ?_⟩
      · by_cases hcc : cid = c
        · subst hcc
          simp [step, hg, timerActive, isPendingC, lookupA_eraseA_self]
        · simp [step, hg, timerActive, isPendingC,
            lookupA_eraseA_ne c cid _ hcc]
          exact h1 cid
      · by_cases hcc : cid = c
        · subst hcc
          simp [step, hg, isPendingC, lookupA_eraseA_self] at hcp
        · simp [step, hg, isPendingC, lookupA_eraseA_ne c cid _ hcc] at hcp
          simp [step, hg, promState, lookupA_settleP, hcc]
          exact h2 cid hcp
      · by_cases hcc : cid = c
        · subst hcc
          simp [step, hg, promState, isPendingC, lookupA_eraseA_self,
            lookupA_settleP]
          intro x hx
          cases x <;> simp [settleVal]
        · simp [step, hg, promState, isPendingC,
            lookupA_eraseA_ne c cid _ hcc, lookupA_settleP, hcc]
          exact h3 cid
    · simp only [step, if_neg hg]
      exact ⟨h1, h2, h3⟩
  | timerFire c =>
    cases htt : lookupA c s.timers with
    | none =>
      simp only [step, htt]
      exact ⟨h1, h2, h3⟩
    | some ty =>
      refine ⟨fun cid => ?_, fun cid hcp => ?_, fun cid => ?_⟩
      · by_cases hcc : cid = c
        · subst hcc
          simp [step, htt, timerActive, isPendingC, lookupA_eraseA_self]
        · simp [step, htt, timerActive, isPendingC,
            lookupA_eraseA_ne c cid _ hcc]
          exact h1 cid
      · by_cases hcc : cid = c
        · subst hcc
          simp [step, htt, isPendingC, lookupA_eraseA_self] at hcp
        · simp [step, htt, isPendingC, lookupA_eraseA_ne c cid _ hcc] at hcp
          simp [step, htt, promState, lookupA_settleP, hcc]
          exact h2 cid hcp
      · by_cases hcc : cid = c
        · subst hcc
          simp [step, htt, promState, isPendingC, lookupA_eraseA_self,
            lookupA_settleP]
          intro x hx
          cases x <;> simp [settleVal]
        · simp [step, htt, promState, isPendingC,
            lookupA_eraseA_ne c cid _ hcc, lookupA_settleP, hcc]
          exact h3 cid
  | publishResult c n =>
    by_cases hn : n = 0
    · subst hn
      refine ⟨fun cid => ?_, fun cid hcp => ?_, fun cid => ?_⟩
      · by_cases hcc : cid = c
        · subst hcc
          simp [step, timerActive, isPendingC, lookupA_eraseA_self]
        · simp [step, timerActive, isPendingC, lookupA_eraseA_ne c cid _ hcc]
          exact h1 cid
      · by_cases hcc : cid = c
        · subst hcc
          simp [step, isPendingC, lookupA_eraseA_self] at hcp
        · simp [step, isPendingC, lookupA_eraseA_ne c cid _ hcc] at hcp
          simp [step, promState, lookupA_settleP, hcc]
          exact h2 cid hcp
      · by_cases hcc : cid = c
        · subst hcc
          simp [step, promState, isPendingC, lookupA_eraseA_self,
            lookupA_settleP]
          intro x hx
          cases x <;> simp [settleVal]
        · simp [step, promState, isPendingC,
            lookupA_eraseA_ne c cid _ hcc, lookupA_settleP, hcc]
          exact h3 cid
    · simp only [step, if_neg hn]
      exact ⟨h1, h2, h3⟩
  | publishError c =>
    refine ⟨fun cid => ?_, fun cid hcp => ?_, fun cid => ?_⟩
    · by_cases hcc : cid = c
      · subst hcc
        simp [step, timerActive, isPendingC, lookupA_eraseA_self]
      · simp [step, timerActive, isPendingC, lookupA_eraseA_ne c cid _ hcc]
        exact h1 cid
    · by_cases hcc : cid = c
      · subst hcc
        simp [step, isPendingC, lookupA_eraseA_self] at hcp
      · simp [step, isPendingC, lookupA_eraseA_ne c cid _ hcc] at hcp
        simp [step, promState, lookupA_settleP, hcc]
        exact h2 cid hcp
    · by_cases hcc : cid = c
      · subst hcc
        simp [step, promState, isPendingC, lookupA_eraseA_self, lookupA_settleP]
        intro x hx
        cases x <;> simp [settleVal]
      · simp [step, promState, isPendingC,
          lookupA_eraseA_ne c cid _ hcc, lookupA_settleP, hcc]
        exact h3 cid
  | shutdown =>
    refine ⟨fun cid => ?_, fun cid hcp => ?_, fun cid => ?_⟩
    · have hfil : lookupA cid
          (s.timers.filter (fun t => (lookupA t.1 s.pendingRequests).isNone)) =
          if (lookupA cid s.pendingRequests).isNone then lookupA cid s.timers
          else none :=
        lookupA_filter_key (fun k => (lookupA k s.pendingRequests).isNone) cid s.timers
      simp only [step, timerActive, isPendingC, lookupA]
      rw [hfil]
      by_cases hq : (lookupA cid s.pendingRequests).isNone = true
      · rw [if_pos hq]
        have := h1 cid
        rw [timerActive, isPendingC] at this
        rw [this]
        simpa using hq
      · rw [if_neg (by simpa using hq)]
    · simp [step, isPendingC, lookupA] at hcp
    · simp only [step, promState, isPendingC, lookupA]
      rw [lookupA_settleAll]
      constructor
      · intro hsome
        by_cases hm : cid ∈ s.pendingRequests.map Prod.fst
        · rw [if_pos hm] at hsome
          exact absurd hsome (map_settleVal_ne_some_none _ _)
        · rw [if_neg hm] at hsome
          have hpend := (h3 cid).mp hsome
          rw [isPendingC] at hpend
          exact absurd (mem_map_fst_of_lookupA_isSome cid _ hpend) hm
      · intro hfalse
        simp at hfalse

theorem Inv_runEv (tr : List Ev) (s : SvcState) (h : Inv s) : Inv (runEv tr s) := by
  induction tr generalizing s with
  | nil => exact h
  | cons e tr ih => exact ih (step e s) (Inv_step e s h)

/-- Once a future has settled with outcome `o`, no admissible later event
changes it. -/
theorem settled_persists_step (e : Ev) (s : SvcState) (cid : String) (o : Outcome)
    (hok : evOk s e = true) (h : promState cid s = some (some o)) :
    promState cid (step e s) = some (some o) := by
  cases e with
  | svcInit =>
    have hq : (step Ev.svcInit s).promises = s.promises := by
      by_cases hI : s.inited <;> simp [step, hI]
    rw [promState, hq]
    exact h
  | request c ty =>
    simp only [evOk] at hok
    by_cases hcc : c = cid
    · subst hcc
      rw [promState] at h
      simp [h] at hok
    · simp only [step, promState, lookupA]
      rw [if_neg hcc]
      exact h
  | reply c success data err =>
    by_cases hg : (lookupA c s.pendingRequests).isSome = true
    · simp only [step, if_pos hg, promState]
      exact promState_settleP_settled c cid o _ s.promises h
    · simp only [step, if_neg hg]
      exact h
  | timerFire c =>
    cases htt : lookupA c s.timers with
    | none =>
      simp only [step, htt]
      exact h
    | some ty =>
      simp only [step, htt, promState]
      exact promState_settleP_settled c cid o _ s.promises h
  | publishResult c n =>
    by_cases hn : n = 0
    · subst hn
      simp only [step, promState, if_pos rfl]
      exact promState_settleP_settled c cid o _ s.promises h
    · simp only [step, if_neg hn]
      exact h
  | publishError c =>
    simp only [step, promState]
    exact promState_settleP_settled c cid o _ s.promises h
  | shutdown =>
    simp only [step, promState]
    exact promState_settleAll_settled _ o _ s.promises cid h

theorem settled_persists_run (tr : List Ev) (s : SvcState) (cid : String) (o : Outcome)
    (hwf : wfFrom s tr = true) (h : promState cid s = some (some o)) :
    promState cid (runEv tr s) = some (some o) := by
  induction tr generalizing s with
  | nil => exact h
  | cons e tr ih =>
    simp only [wfFrom, Bool.and_eq_true] at hwf
    exact ih (step e s) hwf.2 (settled_persists_step e s cid o hwf.1 h)

/-- C5: along any trace with fresh correlation ids, every `requestReply`
future settles at most once (a settled outcome persists through any
admissible continuation) and exactly once by the time its waiter is gone
(a requested id is out of the pending map iff its future has settled, via
a reply, the deadline timer, a zero-subscriber publish result, a publish
error, or shutdown); whenever it settles the waiter is removed and its
timer cancelled; and a reply whose correlation id has no registered waiter
leaves the entire service state unchanged — discarded without affecting
any other pending request. -/
theorem C5_correlation_integrity (tr : List Ev)
    (hwf : wfFrom initState tr = true) :
    (∀ (cid : String) (o : Outcome) (tr2 : List Ev),
      wfFrom (runEv tr initState) tr2 = true →
      promState cid (runEv tr initState) = some (some o) →
      promState cid (runEv tr2 (runEv tr initState)) = some (some o)) ∧
    (∀ (cid : String) (o : Outcome),
      promState cid (runEv tr initState) = some (some o) →
      isPendingC cid (runEv tr initState) = false ∧
      timerActive cid (runEv tr initState) = false) ∧
    (∀ (cid : String) (x : Option Outcome),
      promState cid (runEv tr initState) = some x →
      (isPendingC cid (runEv tr initState) = false ↔ ∃ o, x = some o)) ∧
    (∀ (s : SvcState) (cid : String) (success : Bool) (data : Option String)
        (err : RemoteErrInfo), isPendingC cid s = false →
      step (.reply cid success data err) s = s) := by
  obtain ⟨h1, h2, h3⟩ := Inv_runEv tr initState Inv_initState
  refine ⟨?_, ?_, ?_, ?_⟩
  · intro cid o tr2 hwf2 hsettled
    exact settled_persists_run tr2 _ cid o hwf2 hsettled
  · intro cid o hsettled
    have hpend : isPendingC cid (runEv tr initState) = false := by
      cases hp : isPendingC cid (runEv tr initState)
      · rfl
      · have hcontr := (h3 cid).mpr hp
        rw [hsettled] at hcontr
        simp at hcontr
    refine ⟨hpend, ?_⟩
    rw [h1 cid, hpend]
  · intro cid x hx
    constructor
    · intro hpend
      cases x with
      | none => exact absurd ((h3 cid).mp hx) (by simp [hpend])
      | some o => exact ⟨o, rfl⟩
    · rintro ⟨o, rfl⟩
      cases hp : isPendingC cid (runEv tr initState)
      · rfl
      · have hcontr := (h3 cid).mpr hp
        rw [hx] at hcontr
        simp at hcontr
  · intro s cid success data err hnp
    have hguard : ¬ ((lookupA cid s.pendingRequests).isSome = true) := by
      rw [isPendingC] at hnp
      simp [hnp]
    simp [step, hguard]

def c5Trace : List Ev :=
  [Ev.request "a" "points.credit",
   Ev.reply "a" true (some "d") ⟨none, none, none⟩]

theorem C5_correlation_integrity_witness :
    wfFrom initState c5Trace = true ∧
    promState "a" (runEv c5Trace initState) =
      some (some (Outcome.resolvedOk (some "d"))) ∧
    isPendingC "a" (runEv c5Trace initState) = false ∧
    timerActive "a" (runEv c5Trace initState) = false :=
  ⟨by decide, by decide,
   ((C5_correlation_integrity c5Trace (by decide)).2.1 "a"
      (Outcome.resolvedOk (some "d")) (by decide)).1,
   ((C5_correlation_integrity c5Trace (by decide)).2.1 "a"
      (Outcome.resolvedOk (some "d")) (by decide)).2⟩

/-- C6: when the publish promise of a still-pending `requestReply` reports
zero active subscribers, the future is rejected immediately with the 503
`no_subscribers` AppError — a different error from every `event_timeout`
rejection — its deadline timer is cleared and the waiter is removed from
the correlation map. -/
theorem C6_no_subscribers_immediate (s : SvcState) (cid : String)
    (hp : isPendingC cid s = true)
    (hu : promState cid s = some none) :
    promState cid (step (.publishResult cid 0) s) =
      some (some (Outcome.rejectedApp
        "No subscribers available to process the event. Dashboard backend may be offline."
        503 "no_subscribers")) ∧
    (∀ ty : String, (Outcome.rejectedApp
        "No subscribers available to process the event. Dashboard backend may be offline."
        503 "no_subscribers") ≠
      Outcome.rejectedApp ("Request to dashboard backend timed out (" ++ ty ++ ")")
        504 "event_timeout") ∧
    isPendingC cid (step (.publishResult cid 0) s) = false ∧
    timerActive cid (step (.publishResult cid 0) s) = false := by
  refine ⟨?_, ?_, ?_, ?_⟩
  · rw [promState] at hu
    simp [step, promState, lookupA_settleP, hu, settleVal]
  · intro ty he
    injection he with hm hs hc
    exact absurd hs (by decide)
  · simp [step, isPendingC, lookupA_eraseA_self]
  · simp [step, timerActive, lookupA_eraseA_self]

def c6State : SvcState := runEv [Ev.request "b" "points.credit"] initState

theorem C6_no_subscribers_immediate_witness :
    (isPendingC "b" c6State = true ∧ promState "b" c6State = some none) ∧
    (promState "b" (step (.publishResult "b" 0) c6State) =
      some (some (Outcome.rejectedApp
        "No subscribers available to process the event. Dashboard backend may be offline."
        503 "no_subscribers")) ∧
     isPendingC "b" (step (.publishResult "b" 0) c6State) = false ∧
     timerActive "b" (step (.publishResult "b" 0) c6State) = false) :=
  ⟨⟨by decide, by decide⟩,
   (C6_no_subscribers_immediate c6State "b" (by decide) (by decide)).1,
   (C6_no_subscribers_immediate c6State "b" (by decide) (by decide)).2.2.1,
   (C6_no_subscribers_immediate c6State "b" (by decide) (by decide)).2.2.2⟩

/-- C9 counterexample: after `shutdown` the service has `initialized = false`,
yet a new `requestReply` invocation is still accepted — it registers a
pending waiter and an unsettled future — because `requestReply` never
consults the flag. This refutes the claim that no new requests are
accepted until the service is re-initialized. -/
def c9S1 : SvcState := step Ev.shutdown (runEv [Ev.request "c1" "points.credit"] initState)

theorem C9_counterexample_request_accepted_after_shutdown :
    c9S1.inited = false ∧
    isPendingC "c2" (step (Ev.request "c2" "points.credit") c9S1) = true ∧
    promState "c2" (step (Ev.request "c2" "points.credit") c9S1) = some none ∧
    timerActive "c2" (step (Ev.request "c2" "points.credit") c9S1) = true :=
  ⟨by decide, by decide, by decide, by decide⟩

/-- C9 (amended): `shutdown` fails every outstanding `requestReply` waiter
immediately with the plain Error "Service shutting down", cancels their
deadline timers, empties the pending-correlation map, and clears the
initialized flag; however `requestReply` does not consult that flag, so
new requests are still accepted after shutdown. -/
theorem C9_shutdown_behavior (s : SvcState) (cid : String)
    (hp : isPendingC cid s = true) (hu : promState cid s = some none) :
    (step Ev.shutdown s).pendingRequests = [] ∧
    (step Ev.shutdown s).inited = false ∧
    promState cid (step Ev.shutdown s) =
      some (some (Outcome.rejectedPlain "Service shutting down")) ∧
    timerActive cid (step Ev.shutdown s) = false ∧
    (∀ (c ty : String),
      isPendingC c (step (.request c ty) (step Ev.shutdown s)) = true ∧
      promState c (step (.request c ty) (step Ev.shutdown s)) = some none) := by
  rw [isPendingC] at hp
  rw [promState] at hu
  refine ⟨by simp [step], by simp [step], ?_, ?_, ?_⟩
  · have hmem : cid ∈ s.pendingRequests.map Prod.fst :=
      mem_map_fst_of_lookupA_isSome cid s.pendingRequests hp
    simp only [step, promState]
    rw [lookupA_settleAll, if_pos hmem, hu]
    rfl
  · have hfil : lookupA cid
        (s.timers.filter (fun t => (lookupA t.1 s.pendingRequests).isNone)) =
        if (lookupA cid s.pendingRequests).isNone then lookupA cid s.timers
        else none :=
      lookupA_filter_key (fun k => (lookupA k s.pendingRequests).isNone) cid s.timers
    have hno : ¬ ((lookupA cid s.pendingRequests).isNone = true) := by
      cases hl : lookupA cid s.pendingRequests with
      | none => rw [hl] at hp; simp at hp
      | some v => simp [hl]
    simp only [step, timerActive]
    rw [hfil, if_neg hno]
    rfl
  · intro c ty
    constructor
    · simp [step, isPendingC, lookupA]
    · simp [step, promState, lookupA]

def c9S0 : SvcState := runEv [Ev.request "c1" "points.credit"] initState

theorem C9_shutdown_behavior_witness :
    (isPendingC "c1" c9S0 = true ∧ promState "c1" c9S0 = some none) ∧
    ((step Ev.shutdown c9S0).pendingRequests = [] ∧
     (step Ev.shutdown c9S0).inited = false ∧
     promState "c1" (step Ev.shutdown c9S0) =
       some (some (Outcome.rejectedPlain "Service shutting down")) ∧
     timerActive "c1" (step Ev.shutdown c9S0) = false ∧
     (∀ (c ty : String),
       isPendingC c (step (.request c ty) (step Ev.shutdown c9S0)) = true ∧
       promState c (step (.request c ty) (step Ev.shutdown c9S0)) = some none)) :=
  ⟨⟨by decide, by decide⟩,
   C9_shutdown_behavior c9S0 "c1" (by decide) (by decide)⟩

/-! ## Webhook Dispatcher — `WebhookService` (src/unnamed webhookService.ts)

`sendWithRetry` performs up to `MAX_RETRIES` axios POST attempts, each with
a 5000 ms timeout, recursing after a failed attempt with an exponential
backoff wait of `2^(attempt-1)·1000` ms while `attempt < MAX_RETRIES`, and
throwing a terminal error after the last failure.  The model replaces the
HTTP call by an outcome oracle (`outcome k` = whether attempt `k`
succeeds) and records the attempt numbers, the per-attempt axios timeout
configuration, and the backoff waits actually performed. -/

def MAX_RETRIES : Nat := 3

def WEBHOOK_ATTEMPT_TIMEOUT_MS : Nat := 5000

/-- Observable log of one `sendWithRetry` invocation. -/
structure AttemptLog where
  ok : Bool
  attemptNums : List Nat
  timeouts : List Nat
  delays : List Nat
  thrown : Option String
deriving DecidableEq, Repr

def sendWithRetry (outcome : Nat → Bool) (attempt : Nat) : AttemptLog :=
  let delay := 2 ^ (attempt - 1) * 1000
  if outcome attempt then
    { ok := true, attemptNums := [attempt], timeouts := [WEBHOOK_ATTEMPT_TIMEOUT_MS],
      delays := [], thrown := none }
  else if h : attempt < MAX_RETRIES then
    let r := sendWithRetry outcome (attempt + 1)
    { ok := r.ok, attemptNums := attempt :: r.attemptNums,
      timeouts := WEBHOOK_ATTEMPT_TIMEOUT_MS :: r.timeouts,
      delays := delay :: r.delays, thrown := r.thrown }
  else
    { ok := false, attemptNums := [attempt], timeouts := [WEBHOOK_ATTEMPT_TIMEOUT_MS],
      delays := [], thrown := some "Failed to deliver webhook after 3 attempts" }
termination_by MAX_RETRIES - attempt
decreasing_by omega

/-- Full case analysis of a delivery that starts at attempt 1. -/
theorem sendWithRetry_cases (outcome : Nat → Bool) :
    sendWithRetry outcome 1 =
      if outcome 1 then ⟨true, [1], [5000], [], none⟩
      else if outcome 2 then ⟨true, [1, 2], [5000, 5000], [1000], none⟩
      else if outcome 3 then ⟨true, [1, 2, 3], [5000, 5000, 5000], [1000, 2000], none⟩
      else ⟨false, [1, 2, 3], [5000, 5000, 5000], [1000, 2000],
        some "Failed to deliver webhook after 3 attempts"⟩ := by
  cases h1 : outcome 1 <;> cases h2 : outcome 2 <;> cases h3 : outcome 3 <;>
    simp [sendWithRetry, h1, h2, h3, MAX_RETRIES, WEBHOOK_ATTEMPT_TIMEOUT_MS]

/-- C7: every webhook delivery makes at most 3 attempts, each issued with
the 5-second per-attempt axios timeout; a failed attempt triggers a retry
after a backoff wait drawn in order from the schedule 1s, 2s, 4s (so with
3 attempts at most the 1s and 2s waits are ever performed); after the
third failed attempt the failure is terminal — a final error is thrown
and no further attempt happens; and an endpoint that fails twice then
succeeds on the 3rd attempt yields a success with exactly 3 attempts. -/
theorem C7_webhook_retry_policy (outcome : Nat → Bool) :
    (sendWithRetry outcome 1).attemptNums.length ≤ 3 ∧
    (∀ t ∈ (sendWithRetry outcome 1).timeouts, t = 5000) ∧
    (sendWithRetry outcome 1).timeouts.length =
      (sendWithRetry outcome 1).attemptNums.length ∧
    (sendWithRetry outcome 1).delays =
      List.take ((sendWithRetry outcome 1).attemptNums.length - 1) [1000, 2000, 4000] ∧
    ((sendWithRetry outcome 1).ok = false →
      (sendWithRetry outcome 1).attemptNums.length = 3 ∧
      (sendWithRetry outcome 1).thrown =
        some "Failed to deliver webhook after 3 attempts") ∧
    ((sendWithRetry outcome 1).ok = true → (sendWithRetry outcome 1).thrown = none) ∧
    (outcome 1 = false → outcome 2 = false → outcome 3 = true →
      (sendWithRetry outcome 1).ok = true ∧
      (sendWithRetry outcome 1).attemptNums.length = 3 ∧
      (sendWithRetry outcome 1).delays = [1000, 2000]) := by
  cases h1 : outcome 1 <;> cases h2 : outcome 2 <;> cases h3 : outcome 3 <;>
    simp [sendWithRetry_cases, h1, h2, h3]

def c7Outcome : Nat → Bool := fun k => k == 3

theorem C7_webhook_retry_policy_witness :
    (c7Outcome 1 = false ∧ c7Outcome 2 = false ∧ c7Outcome 3 = true) ∧
    ((sendWithRetry c7Outcome 1).ok = true ∧
     (sendWithRetry c7Outcome 1).attemptNums.length = 3 ∧
     (sendWithRetry c7Outcome 1).delays = [1000, 2000]) :=
  ⟨⟨rfl, rfl, rfl⟩,
   (C7_webhook_retry_policy c7Outcome).2.2.2.2.2.2 rfl rfl rfl⟩

/-- The delivered webhook payload `{id, event, created_at, data}`. -/
structure WebhookPayloadM where
  id : String
  event : String
  created_at : String
  data : String
deriving DecidableEq, Repr

/-- The webhook-relevant columns of the merchant row. -/
structure MerchantRow where
  webhook_url : Option String
  webhook_secret : Option String
deriving DecidableEq, Repr

/-- JS truthiness of an optional string column (null/undefined/empty falsy). -/
def jsTruthy (o : Option String) : Bool :=
  match o with
  | some s => s != ""
  | none => false

/-- The HTTP request `sendWithRetry` hands to axios. -/
structure HttpRequestM where
  method : String
  url : String
  contentType : String
  signatureHeaderName : String
  signatureHeader : String
  userAgent : String
  body : String
  timeoutMs : Nat
deriving DecidableEq, Repr

/-- `WebhookService.generateSignature`: hex HMAC-SHA256 over
`timestamp ++ "." ++ payload` with the merchant secret as key. The HMAC
primitive (`crypto.createHmac("sha256", secret)`) is a parameter of the
model. -/
def generateSignature (hmacSha256Hex : String → String → String)
    (payload timestamp secret : String) : String :=
  hmacSha256Hex secret (timestamp ++ "." ++ payload)

/-- `WebhookService.processWebhook` up to the first delivery attempt: load
the merchant row; abort (`none`) when the merchant is missing or its
`webhook_url` / `webhook_secret` is falsy; otherwise build the payload
from the fresh uuid, the event name, the current ISO time and the data,
serialize it (`JSON.stringify` is a parameter), sign
`"unixSeconds.payload"`, and construct the HTTP POST request. -/
def processWebhook (hmacSha256Hex : String → String → String)
    (stringify : WebhookPayloadM → String)
    (merchant : Option MerchantRow) (event dataJson uuid nowIso : String)
    (nowMs : Nat) : Option HttpRequestM :=
  match merchant with
  | none => none
  | some m =>
    if jsTruthy m.webhook_url = false then none
    else if jsTruthy m.webhook_secret = false then none
    else
      let payload : WebhookPayloadM := ⟨uuid, event, nowIso, dataJson⟩
      let payloadString := stringify payload
      let timestamp := toString (nowMs / 1000)
      let signature :=
        generateSignature hmacSha256Hex payloadString timestamp
          (m.webhook_secret.getD "")
      some { method := "POST"
             url := m.webhook_url.getD ""
             contentType := "application/json"
             signatureHeaderName := "X-Rewrd-Signature"
             signatureHeader := "t=" ++ timestamp ++ ",v1=" ++ signature
             userAgent := "Rewrd-Webhook/1.0"
             body := payloadString
             timeoutMs := 5000 }

def c8Hmac : String → String → String :=
  fun secret msg => "mac:" ++ secret ++ ":" ++ msg

def c8Stringify : WebhookPayloadM → String :=
  fun p => "json(" ++ p.id ++ "," ++ p.event ++ "," ++ p.created_at ++ "," ++ p.data ++ ")"

def c8Merchant : MerchantRow := ⟨some "https://example.com/hook", some "whsec_1"⟩

/-- C8 counterexample: a delivered webhook carries its signature in a header
named `X-Rewrd-Signature`, not `X-Signature` as the claim states. -/
theorem C8_counterexample_header_name :
    (processWebhook c8Hmac c8Stringify (some c8Merchant) "customer.created" "d"
        "u1" "2026-01-01T00:00:00.000Z" 1700000000123).map
      (fun r => r.signatureHeaderName) = some "X-Rewrd-Signature" ∧
    (some "X-Rewrd-Signature" : Option String) ≠ some "X-Signature" :=
  ⟨rfl, by decide⟩

/-- C8 (amended): every delivered webhook request is an HTTP POST whose body
is the JSON serialization of the payload with the fresh id, the event
name, the ISO creation time and the data; it carries
`Content-Type: application/json` and a signature header — named
`X-Rewrd-Signature`, not `X-Signature` — whose value is
`t=<unix_ts>,v1=<hex hmac>` where the hex part is exactly
HMAC-SHA256(secret, t ++ "." ++ body) recomputed from the delivered
timestamp and body. -/
theorem C8_signature_roundtrip (hmacSha256Hex : String → String → String)
    (stringify : WebhookPayloadM → String) (merchant : MerchantRow)
    (event dataJson uuid nowIso : String) (nowMs : Nat) (r : HttpRequestM)
    (h : processWebhook hmacSha256Hex stringify (some merchant) event dataJson
      uuid nowIso nowMs = some r) :
    r.method = "POST" ∧
    r.contentType = "application/json" ∧
    r.userAgent = "Rewrd-Webhook/1.0" ∧
    r.signatureHeaderName = "X-Rewrd-Signature" ∧
    r.body = stringify ⟨uuid, event, nowIso, dataJson⟩ ∧
    r.signatureHeader =
      "t=" ++ toString (nowMs / 1000) ++ ",v1=" ++
        hmacSha256Hex (merchant.webhook_secret.getD "")
          (toString (nowMs / 1000) ++ "." ++ r.body) ∧
    r.timeoutMs = 5000 := by
  simp only [processWebhook] at h
  by_cases hu : jsTruthy merchant.webhook_url = false
  · rw [if_pos hu] at h
    exact absurd h (by simp)
  · rw [if_neg hu] at h
    by_cases hs : jsTruthy merchant.webhook_secret = false
    · rw [if_pos hs] at h
      exact absurd h (by simp)
    · rw [if_neg hs] at h
      injection h with h
      subst h
      exact ⟨rfl, rfl, rfl, rfl, rfl, rfl, rfl⟩

def c8Req : HttpRequestM :=
  { method := "POST"
    url := "https://example.com/hook"
    contentType := "application/json"
    signatureHeaderName := "X-Rewrd-Signature"
    signatureHeader := "t=1700000000,v1=" ++
      c8Hmac "whsec_1"
        ("1700000000." ++ c8Stringify ⟨"u1", "customer.created", "iso", "d"⟩)
    userAgent := "Rewrd-Webhook/1.0"
    body := c8Stringify ⟨"u1", "customer.created", "iso", "d"⟩
    timeoutMs := 5000 }

theorem C8_signature_roundtrip_witness :
    (processWebhook c8Hmac c8Stringify (some c8Merchant) "customer.created" "d"
       "u1" "iso" 1700000000123 = some c8Req) ∧
    (c8Req.method = "POST" ∧
     c8Req.contentType = "application/json" ∧
     c8Req.userAgent = "Rewrd-Webhook/1.0" ∧
     c8Req.signatureHeaderName = "X-Rewrd-Signature" ∧
     c8Req.body = c8Stringify ⟨"u1", "customer.created", "iso", "d"⟩ ∧
     c8Req.signatureHeader =
       "t=" ++ toString ((1700000000123 : Nat) / 1000) ++ ",v1=" ++
         c8Hmac (c8Merchant.webhook_secret.getD "")
           (toString ((1700000000123 : Nat) / 1000) ++ "." ++ c8Req.body) ∧
     c8Req.timeoutMs = 5000) :=
  ⟨by decide,
   C8_signature_roundtrip c8Hmac c8Stringify c8Merchant "customer.created" "d"
     "u1" "iso" 1700000000123 c8Req (by decide)⟩

end Rewrd
